import Mathlib

/-!
Verification development for the NeuroTK bundle-inference pipeline.

This file gives a shallow embedding, in Lean 4, of the functions of
`neurotk/inference` that the specification talks about:

* `metrics.py` — `dice_score`;
* `runner.py` — `_prepare_pred` and the array-derivation / batch loop of
  `run_inference`;
* `predictor.py` — `_resolve_config_file`, the checkpoint-resolution block
  and the inferer default of `_load_from_bundle`;
* `config.py` — `_parse_hf_repo_id` and `resolve_bundle_dir`;
* `monai_compat.py` — `make_dice_helper_compat`, `install_dice_helper_compat`
  and `install_transform_compat`.

Numeric tensor contents are modelled with rational numbers, machine paths
with plain strings, Python dictionaries with insertion-ordered association
lists, and the filesystem with a pair of boolean predicates.
-/

namespace NeuroTK

/-! ## Generic character-list helpers (Python string operations) -/

/-- Character lists stand for Python strings when we need to compute on
their contents. -/
abbrev Chars := List Char

/-- The pattern `p` occurs at the very start of `l` (Python `startswith`). -/
def segPre : Chars → Chars → Bool
  | [], _ => true
  | _ :: _, [] => false
  | a :: as, b :: bs => a == b && segPre as bs

/-- The pattern `p` occurs somewhere inside `l` (Python `in` on strings). -/
def containsSeg (p : Chars) : Chars → Bool
  | [] => segPre p []
  | l@(_ :: rest) => segPre p l || containsSeg p rest

/-- Python `str.split(sep)` for a one-character separator: splits at every
occurrence, keeping empty segments. -/
def splitOnChar (c : Char) : Chars → List Chars
  | [] => [[]]
  | x :: xs =>
    let r := splitOnChar c xs
    if x == c then [] :: r
    else
      match r with
      | [] => [[x]]
      | h :: t => (x :: h) :: t

/-- Python `str.strip("/")`: removes every leading and trailing slash. -/
def stripSlashes (l : Chars) : Chars :=
  (((l.dropWhile (fun c => c == '/')).reverse).dropWhile (fun c => c == '/')).reverse

/-! ## Python dictionaries as insertion-ordered association lists -/

/-- Python `d.get(k)`: value of the first (unique) entry with key `k`. -/
def dGet {V : Type} (d : List (String × V)) (k : String) : Option V :=
  (d.find? (fun p => p.1 == k)).map Prod.snd

/-- Python `k in d`. -/
def dHas {V : Type} (d : List (String × V)) (k : String) : Bool :=
  d.any (fun p => p.1 == k)

/-- Python `d.pop(k)` (the resulting dictionary): the entry with key `k`
is removed, all other entries keep their order. -/
def dPop {V : Type} (d : List (String × V)) (k : String) : List (String × V) :=
  d.filter (fun p => p.1 != k)

/-- Python `d[k] = v`: an existing key is updated in place, a new key is
appended at the end, matching dictionary insertion order. -/
def dSet {V : Type} (d : List (String × V)) (k : String) (v : V) : List (String × V) :=
  if dHas d k then d.map (fun p => if p.1 == k then (k, v) else p)
  else d ++ [(k, v)]

/-- Lookup with a default value. -/
def dGetD {V : Type} (d : List (String × V)) (k : String) (v0 : V) : V :=
  (dGet d k).getD v0

/-! ## metrics.py — dice_score

Source (`neurotk/inference/metrics.py`, lines 8–15): after a shape-equality
check, both tensors are cast to float and
`(2 * sum(pred * target) + eps) / (sum(pred) + sum(target) + eps)` is
returned.  Tensors are modelled as a shape together with flattened
rational-valued data; `torch.sum(pred * target)` is the sum of the
pointwise products. -/

/-- Element type tag of a modelled array (`numpy`/`torch` dtype). -/
inductive DType where
  | f32
  | i64
  | u8
deriving DecidableEq, Repr

/-- A tensor / numpy array: shape, row-major flattened data, and dtype. -/
structure NdArray where
  shape : List Nat
  data : List ℚ
  dtype : DType
deriving DecidableEq, Repr

/-- Epsilon default of `dice_score` (`1e-6`). -/
def defaultEps : ℚ := 1 / 1000000

/-- Sum of the pointwise product of two equal-length data vectors
(`torch.sum(pred * target)`). -/
def sumProd (a b : List ℚ) : ℚ :=
  (List.zipWith (fun x y => x * y) a b).sum

/-- Embedding of `dice_score` from `metrics.py`: shape mismatch raises
`ValueError`, otherwise the smoothed dice ratio is returned. -/
def dice_score (pred target : NdArray) (eps : ℚ) : Except String ℚ :=
  if pred.shape ≠ target.shape then
    Except.error "pred and target must have the same shape"
  else
    Except.ok ((2 * sumProd pred.data target.data + eps) /
      (pred.data.sum + target.data.sum + eps))

/-- A binary mask: every entry is zero or one. -/
def IsBinary (t : NdArray) : Prop := ∀ x ∈ t.data, x = 0 ∨ x = 1

/-- A non-empty mask: some entry equals one. -/
def HasForeground (t : NdArray) : Prop := (1 : ℚ) ∈ t.data

/-- For a binary data vector, the pointwise self-product sums to the
plain sum, because x * x = x when x is zero or one. -/
lemma sum_zipWith_mul_self (l : List ℚ) (h : ∀ x ∈ l, x = 0 ∨ x = 1) :
    (List.zipWith (fun x y => x * y) l l).sum = l.sum := by
  induction l with
  | nil => simp
  | cons x xs ih =>
    have hx := h x (List.mem_cons_self x xs)
    have hxs : ∀ y ∈ xs, y = 0 ∨ y = 1 := fun y hy => h y (List.mem_cons_of_mem x hy)
    have hzip : List.zipWith (fun x y => x * y) (x :: xs) (x :: xs)
        = (x * x) :: List.zipWith (fun x y => x * y) xs xs := rfl
    rw [hzip, List.sum_cons, List.sum_cons, ih hxs]
    rcases hx with hx | hx <;> rw [hx] <;> norm_num

/-- A binary data vector has a nonnegative sum. -/
lemma binary_sum_nonneg (l : List ℚ) (h : ∀ x ∈ l, x = 0 ∨ x = 1) :
    0 ≤ l.sum := by
  apply List.sum_nonneg
  intro x hx
  rcases h x hx with h0 | h0 <;> simp [h0]

/-- C9: the dice score of two equal-shaped masks equals
(2·|intersection| + ε) / (|pred| + |label| + ε) with ε = 1e-6; for every
identical non-empty binary mask of any shape the score is exactly 1
(hence within 1e-6 of 1.0), and for disjoint non-empty binary masks it
is ε / (|A| + |B| + ε), which is strictly positive. -/
theorem claim_C9 (a b t : NdArray)
    (hs : a.shape = b.shape)
    (hab : IsBinary a) (hbb : IsBinary b) (htb : IsBinary t)
    (hane : HasForeground a) (hbne : HasForeground b) (htne : HasForeground t)
    (hdisj : ∀ x ∈ List.zipWith (fun x y => x * y) a.data b.data, x = (0 : ℚ)) :
    dice_score a b defaultEps =
      Except.ok ((2 * sumProd a.data b.data + defaultEps) /
        (a.data.sum + b.data.sum + defaultEps)) ∧
    dice_score t t defaultEps = Except.ok 1 ∧
    dice_score a b defaultEps =
      Except.ok (defaultEps / (a.data.sum + b.data.sum + defaultEps)) ∧
    (0 : ℚ) < defaultEps / (a.data.sum + b.data.sum + defaultEps) := by
  have hdena : 0 ≤ a.data.sum := binary_sum_nonneg a.data hab
  have hdenb : 0 ≤ b.data.sum := binary_sum_nonneg b.data hbb
  have heps : (0 : ℚ) < defaultEps := by norm_num [defaultEps]
  have hposden : 0 < a.data.sum + b.data.sum + defaultEps := by linarith
  refine ⟨?_, ?_, ?_, ?_⟩
  · simp [dice_score, hs]
  · have hself : (List.zipWith (fun x y => x * y) t.data t.data).sum = t.data.sum :=
      sum_zipWith_mul_self t.data htb
    have hts : 0 ≤ t.data.sum := binary_sum_nonneg t.data htb
    have hne : t.data.sum + t.data.sum + defaultEps ≠ 0 := by linarith
    have hone : (2 * t.data.sum + defaultEps) /
        (t.data.sum + t.data.sum + defaultEps) = 1 := by
      rw [div_eq_one_iff_eq hne]
      ring
    unfold dice_score sumProd
    rw [if_neg (by simp), hself, hone]
  · have hzero : sumProd a.data b.data = 0 := List.sum_eq_zero hdisj
    simp [dice_score, hs, hzero]
  · exact div_pos heps hposden

/-- Disjoint concrete mask used to instantiate C9. -/
def maskA : NdArray := ⟨[2], [1, 0], DType.f32⟩

/-- Disjoint concrete mask used to instantiate C9. -/
def maskB : NdArray := ⟨[2], [0, 1], DType.f32⟩

/-- Identical-pair concrete mask used to instantiate C9. -/
def maskT : NdArray := ⟨[3], [1, 0, 1], DType.f32⟩

/-- Witness for C9 at concrete masks: identical mask [1,0,1] with itself,
and disjoint masks [1,0] and [0,1]. -/
theorem claim_C9_witness :
    dice_score maskA maskB defaultEps =
      Except.ok ((2 * sumProd maskA.data maskB.data + defaultEps) /
        (maskA.data.sum + maskB.data.sum + defaultEps)) ∧
    dice_score maskT maskT defaultEps = Except.ok 1 ∧
    dice_score maskA maskB defaultEps =
      Except.ok (defaultEps / (maskA.data.sum + maskB.data.sum + defaultEps)) ∧
    (0 : ℚ) < defaultEps / (maskA.data.sum + maskB.data.sum + defaultEps) := by
  have hbinA : IsBinary maskA := by
    unfold IsBinary
    decide
  have hbinB : IsBinary maskB := by
    unfold IsBinary
    decide
  have hbinT : IsBinary maskT := by
    unfold IsBinary
    decide
  have hdisj : ∀ x ∈ List.zipWith (fun x y => x * y) maskA.data maskB.data,
      x = (0 : ℚ) := by
    intro x hx
    simp [maskA, maskB] at hx
    exact hx
  exact claim_C9 maskA maskB maskT rfl hbinA hbinB hbinT
    (by unfold HasForeground maskA; decide) (by unfold HasForeground maskB; decide)
    (by unfold HasForeground maskT; decide) hdisj

/-! ## runner.py — `_prepare_pred` and the persisted-array derivation

Source (`neurotk/inference/runner.py`): `_prepare_pred` (lines 109–116)
keeps the float tensor when probabilities are requested, squeezes a
single leading channel, and otherwise collapses channels with
`torch.argmax(pred, dim=0)`; `run_inference` (lines 143–148) then, when
probabilities were not requested, binarises any non-uint8 array with
`(pred_arr > 0.5).astype(np.uint8)` and passes uint8 arrays through
`to_uint8_mask`. -/

/-- The rational one half, written as an explicit normal form so that it
evaluates inside `decide`; it equals the threshold 0.5 of the source. -/
def half : ℚ := ⟨1, 2, by norm_num, by norm_num⟩

/-- half is 1/2, hence the source's 0.5 threshold. -/
lemma half_eq : half = 1 / 2 := by
  rw [half, Rat.mk'_eq_divInt]
  norm_num [Rat.divInt_eq_div]

/-- Element `i` of a flat data vector; out-of-range reads default to 0
(the modelled code only indexes in range). -/
def getQ (l : List ℚ) (i : Nat) : ℚ := l.getD i 0

/-- Number of elements per channel of a tensor whose leading axis is the
channel axis: the product of the non-leading dimensions. -/
def innerSize (t : NdArray) : Nat := (t.shape.drop 1).prod

/-- Scan for the index of the first maximal value; `bestV` and `bestI`
hold the running maximum and its index, `i` indexes the list head.
Ties keep the earlier index, as `torch.argmax` returns the first
occurrence of the maximum. -/
def argmaxFrom : List ℚ → ℚ → Nat → Nat → Nat
  | [], _, _, bestI => bestI
  | v :: vs, bestV, i, bestI =>
    if bestV < v then argmaxFrom vs v (i + 1) i
    else argmaxFrom vs bestV (i + 1) bestI

/-- Index of the first maximal element of a list (0 on the empty list,
which the modelled code never produces). -/
def argmaxIdx : List ℚ → Nat
  | [] => 0
  | v :: vs => argmaxFrom vs v 1 0

/-- Values of all channels at flat spatial position `i`: the column over
the leading axis that `torch.argmax(pred, dim=0)` reduces. -/
def channelVals (t : NdArray) (i : Nat) : List ℚ :=
  (List.range (t.shape.headD 0)).map (fun c => getQ t.data (c * innerSize t + i))

/-- Embedding of `torch.argmax(pred, dim=0)`: collapse the leading
channel axis to the index of the first maximal channel; the result has
dtype int64. -/
def argmax0 (t : NdArray) : NdArray :=
  { shape := t.shape.drop 1
    data := (List.range (innerSize t)).map
      (fun i => ((argmaxIdx (channelVals t i) : Nat) : ℚ))
    dtype := DType.i64 }

/-- Embedding of `pred.squeeze(0)` for a tensor whose leading dimension
is 1: the leading axis disappears, data and dtype are unchanged. -/
def squeeze0 (t : NdArray) : NdArray :=
  { shape := t.shape.drop 1, data := t.data, dtype := t.dtype }

/-- Embedding of `_prepare_pred` (runner.py lines 109–116). -/
def prepare_pred (pred : NdArray) (save_probs : Bool) : NdArray :=
  if 4 ≤ pred.shape.length then
    if save_probs then { pred with dtype := DType.f32 }
    else if pred.shape.headD 0 = 1 then squeeze0 pred
    else argmax0 pred
  else pred

/-- numpy `(arr > 0.5).astype(np.uint8)`: strict comparison against one
half, mapped to the bytes 1 and 0. -/
def thresholdU8 (t : NdArray) : NdArray :=
  { t with data := t.data.map (fun x => if half < x then 1 else 0)
           dtype := DType.u8 }

/-- C-style truncation of a rational to an unsigned byte, modelling
numpy `astype(np.uint8)`; in this pipeline `to_uint8_mask` only ever
receives uint8 data, so this branch is never exercised. -/
def castU8 (x : ℚ) : ℚ := ((((x.num / (x.den : ℤ)) % 256 + 256) % 256 : ℤ) : ℚ)

/-- Embedding of `to_uint8_mask` (io_utils.py lines 39–42). -/
def to_uint8_mask (t : NdArray) : NdArray :=
  if t.dtype = DType.u8 then t
  else { t with data := t.data.map castU8, dtype := DType.u8 }

/-- The complete array-derivation step of `run_inference` (runner.py
lines 143–148): `_prepare_pred`, then for non-probability outputs the
binarisation at 0.5 into uint8 (or `to_uint8_mask` when the array is
already uint8). -/
def derive_pred_array (pred : NdArray) (save_probs : Bool) : NdArray :=
  let arr := prepare_pred pred save_probs
  if save_probs then arr
  else if arr.dtype ≠ DType.u8 then thresholdU8 arr
  else to_uint8_mask arr

/-- Concrete three-channel, one-voxel prediction tensor whose arg-max
channel index is 2. -/
def predC1 : NdArray := ⟨[3, 1, 1, 1], [0, 0, 2], DType.f32⟩

/-- C1 counterexample: for the tensor `predC1` the arg-max label map is
[2], but the array persisted by the runner is [1] — the class index 2 is
not preserved, because `run_inference` re-binarises the non-uint8 label
map at 0.5 before saving. -/
theorem claim_C1_counterexample :
    (argmax0 predC1).data = [2] ∧
    (derive_pred_array predC1 false).data = [1] ∧
    (derive_pred_array predC1 false).data ≠ (argmax0 predC1).data :=
  ⟨by decide, by decide, by decide⟩

/-- C1 (amended): for every at-least-4-dimensional float prediction
tensor handed to the batch runner's array-derivation step: when
probability output is requested the full per-channel float tensor is
kept; otherwise, when the tensor has a single leading channel, that
channel is squeezed and the values thresholded at 0.5 into an unsigned
byte mask; otherwise the channels are collapsed by arg-max into an
integer label map which is then itself thresholded at 0.5 into an
unsigned byte mask, so an arg-max class index k ≥ 1 is persisted as 1,
not as k. -/
theorem claim_C1 (pred : NdArray) (hdim : 4 ≤ pred.shape.length)
    (hdt : pred.dtype = DType.f32) :
    derive_pred_array pred true = { pred with dtype := DType.f32 } ∧
    (pred.shape.headD 0 = 1 →
      derive_pred_array pred false = thresholdU8 (squeeze0 pred)) ∧
    (pred.shape.headD 0 ≠ 1 →
      derive_pred_array pred false = thresholdU8 (argmax0 pred)) ∧
    (pred.shape.headD 0 ≠ 1 →
      (derive_pred_array pred false).data =
        (argmax0 pred).data.map (fun x => if half < x then 1 else 0)) := by
  refine ⟨?_, ?_, ?_, ?_⟩
  · simp [derive_pred_array, prepare_pred, hdim]
  · intro h1
    have hsq : (squeeze0 pred).dtype = DType.f32 := hdt
    rw [List.headD_eq_head?] at h1
    simp [derive_pred_array, prepare_pred, hdim, h1, hsq]
  · intro h1
    rw [List.headD_eq_head?] at h1
    simp [derive_pred_array, prepare_pred, hdim, h1, argmax0]
  · intro h1
    rw [List.headD_eq_head?] at h1
    simp [derive_pred_array, prepare_pred, hdim, h1, argmax0, thresholdU8]

/-- Witness for C1 (amended) at the concrete tensor `predC1`. -/
theorem claim_C1_witness :
    derive_pred_array predC1 true = { predC1 with dtype := DType.f32 } ∧
    (predC1.shape.headD 0 = 1 →
      derive_pred_array predC1 false = thresholdU8 (squeeze0 predC1)) ∧
    (predC1.shape.headD 0 ≠ 1 →
      derive_pred_array predC1 false = thresholdU8 (argmax0 predC1)) ∧
    (predC1.shape.headD 0 ≠ 1 →
      (derive_pred_array predC1 false).data =
        (argmax0 predC1).data.map (fun x => if half < x then 1 else 0)) :=
  claim_C1 predC1 (by decide) (by decide)

/-! ## runner.py — the batch loop of `run_inference`

Source (runner.py lines 140–164): a plain sequential `for` over the
resolved inputs; each iteration predicts, derives the output array and
writes it.  A raised exception propagates out of the loop, so items
after the failing one are never processed, while the artifacts already
written remain.  The loop is modelled by a recursion that accumulates
the outputs written so far and stops at the first failing item. -/

/-- The sequential batch loop of `run_inference`: `step` is one
iteration (predict the volume, derive the array, write the file); the
result collects the artifacts written in order and the error, if any,
that aborted the loop. -/
def runBatch {I O E : Type} (step : I → Except E O) : List I → List O × Option E
  | [] => ([], none)
  | x :: xs =>
    match step x with
    | Except.error e => ([], some e)
    | Except.ok y =>
      let r := runBatch step xs
      (y :: r.1, r.2)

/-- C8: the batch runner has no per-item error isolation — when every
item before `x` succeeds and item `x` fails, the run produces exactly
the outputs of the items before `x` (they remain), and nothing at all
for the items after `x`. -/
theorem claim_C8 {I O E : Type} (step : I → Except E O) (f : I → O)
    (pre : List I) (x : I) (post : List I) (e : E)
    (hok : ∀ a ∈ pre, step a = Except.ok (f a))
    (herr : step x = Except.error e) :
    runBatch step (pre ++ x :: post) = (pre.map f, some e) := by
  induction pre with
  | nil => simp [runBatch, herr]
  | cons a as ih =>
    have ha : step a = Except.ok (f a) := hok a (List.mem_cons_self a as)
    have has : ∀ b ∈ as, step b = Except.ok (f b) :=
      fun b hb => hok b (List.mem_cons_of_mem a hb)
    simp [runBatch, ha, ih has]

/-- Witness for C8: in a batch of three inputs whose second item fails,
only the first item's output is produced. -/
theorem claim_C8_witness :
    runBatch (fun n : Nat => if n = 2 then Except.error "boom" else Except.ok (n * 10))
      ([1] ++ 2 :: [3]) = ([10], some "boom") :=
  claim_C8 (fun n : Nat => if n = 2 then Except.error "boom" else Except.ok (n * 10))
    (fun n => n * 10) [1] 2 [3] "boom"
    (by intro a ha; simp at ha; subst ha; rfl) rfl

/-! ## predictor.py — config selection, checkpoint resolution, inferer default -/

/-- Filesystem oracle: which paths exist and which are directories. -/
structure FS where
  pathExists : String → Bool
  isDir : String → Bool

/-- Like os.path.join for a relative second component. -/
def joinP (a b : String) : String := a ++ "/" ++ b

/-- Like os.path.isabs: the path starts with a slash. -/
def isAbsP (p : String) : Bool := segPre ['/'] p.data

/-- Joining under an absolute directory yields an absolute path. -/
lemma isAbsP_joinP (a b : String) (h : isAbsP a = true) :
    isAbsP (joinP a b) = true := by
  unfold isAbsP joinP at *
  rw [String.data_append, String.data_append]
  cases hd : a.data with
  | nil => rw [hd] at h; simp [segPre] at h
  | cons c cs =>
    rw [hd] at h
    simp [segPre] at h ⊢
    exact h

/-- Candidate config filenames, in the priority order of
`_resolve_config_file`: the four names of the loop, then the
Auto3DSeg `hyper_parameters.yaml`. -/
def configCandidates : List String :=
  ["inference.yaml", "inference.json", "evaluate.yaml", "evaluate.json",
   "hyper_parameters.yaml"]

/-- Error message raised when no config file is found. -/
def noConfigMsg : String := "No inference/evaluate config found in bundle configs/"

/-- Embedding of `BundlePredictor._resolve_config_file` (predictor.py
lines 35–44): the first four names are tried in order under configs/,
then hyper_parameters.yaml, else a FileNotFoundError is raised. -/
def resolve_config_file (fs : FS) (bundleDir : String) : Except String String :=
  match (["inference.yaml", "inference.json", "evaluate.yaml", "evaluate.json"].map
      (joinP (joinP bundleDir "configs"))).find? fs.pathExists with
  | some p => Except.ok p
  | none =>
    if fs.pathExists (joinP (joinP bundleDir "configs") "hyper_parameters.yaml")
    then Except.ok (joinP (joinP bundleDir "configs") "hyper_parameters.yaml")
    else Except.error noConfigMsg

/-- Conventional checkpoint filenames tried by `_load_from_bundle`
(predictor.py line 101), in order. -/
def ckptCandidates : List String :=
  ["models/best_metric_model.pt", "models/model_final.pt", "models/model.pt"]

/-- The final absolutisation step of checkpoint resolution (predictor.py
lines 106–107): a path that is not absolute is anchored at the bundle
root (abspath's separate normalisation of dots is not modelled). -/
def finalizeCkpt (bundleDir p : String) : String :=
  if isAbsP p then p else joinP bundleDir p

/-- Embedding of the checkpoint-resolution block of
`BundlePredictor._load_from_bundle` (predictor.py lines 97–109): an
explicit `ckpt_path` argument wins; else a config-declared `checkpoint`
entry; else the first existing conventional weight file under the
bundle directory; else a checkpoint-not-found error.  `bundleDir` is
`self.bundle_dir`, which `__init__` has made absolute. -/
def resolve_checkpoint (fs : FS) (bundleDir : String)
    (explicitCkpt configCkpt : Option String) : Except String String :=
  let c1 := match explicitCkpt with
    | some p => some p
    | none => configCkpt
  let c2 := match c1 with
    | some p => some p
    | none => (ckptCandidates.map (joinP bundleDir)).find? fs.pathExists
  match c2 with
  | none => Except.error "No checkpoint found in bundle models/"
  | some p => Except.ok (finalizeCkpt bundleDir p)

/-- An assembled inferer: either the config-declared component, or the
sliding-window default. -/
inductive Inferer where
  | slidingWindow (roiSize : Nat × Nat × Nat) (swBatchSize : Nat) (overlap : ℚ)
  | fromConfig (spec : String)
deriving DecidableEq, Repr

/-- Declarative-path component table of a bundle config: the optional
ids that `_load_from_bundle` (lines 138–149) looks up in the parser. -/
structure BundleConfig where
  preprocessing : Option String
  postprocessing : Option String
  inferer : Option String

/-- Embedding of the inferer selection of `_load_from_bundle`
(predictor.py lines 145–149): the declared `inferer` component when the
config has one, else
`SlidingWindowInferer(roi_size=(96, 96, 96), sw_batch_size=1, overlap=0.25)`. -/
def assemble_inferer (cfg : BundleConfig) : Inferer :=
  match cfg.inferer with
  | some spec => Inferer.fromConfig spec
  | none => Inferer.slidingWindow (96, 96, 96) 1 (0.25 : ℚ)

/-- C2: checkpoint resolution uses the explicit argument if given; else
the config-declared reference; else the first existing file of the
fixed candidate list under the bundle directory; else it fails with the
checkpoint-not-found error; and every resolved path that is not already
absolute is made absolute relative to the bundle root. -/
theorem claim_C2 (fs : FS) (bundleDir e c : String) (configCkpt : Option String)
    (habs : isAbsP bundleDir = true) :
    resolve_checkpoint fs bundleDir (some e) configCkpt =
      Except.ok (finalizeCkpt bundleDir e) ∧
    resolve_checkpoint fs bundleDir none (some c) =
      Except.ok (finalizeCkpt bundleDir c) ∧
    (∀ p, (ckptCandidates.map (joinP bundleDir)).find? fs.pathExists = some p →
      resolve_checkpoint fs bundleDir none none = Except.ok p) ∧
    ((ckptCandidates.map (joinP bundleDir)).find? fs.pathExists = none →
      resolve_checkpoint fs bundleDir none none =
        Except.error "No checkpoint found in bundle models/") ∧
    (∀ expl cfg p, resolve_checkpoint fs bundleDir expl cfg = Except.ok p →
      isAbsP p = true) := by
  refine ⟨rfl, rfl, ?_, ?_, ?_⟩
  · intro p hp
    have habs2 : isAbsP p = true := by
      rcases List.find?_some hp with -
      have hmem := List.mem_of_find?_eq_some hp
      rcases List.mem_map.mp hmem with ⟨cand, _, hcand⟩
      rw [← hcand]
      exact isAbsP_joinP bundleDir cand habs
    simp [resolve_checkpoint, hp, finalizeCkpt, habs2]
  · intro hnone
    simp [resolve_checkpoint, hnone]
  · intro expl cfg p hres
    have : ∀ q, finalizeCkpt bundleDir q = p → isAbsP p = true := by
      intro q hq
      rw [← hq]
      unfold finalizeCkpt
      by_cases hq2 : isAbsP q = true
      · simp [hq2]
      · simp [hq2, isAbsP_joinP bundleDir q habs]
    unfold resolve_checkpoint at hres
    rcases expl with - | ep
    · rcases cfg with - | cp
      · rcases hfind : (ckptCandidates.map (joinP bundleDir)).find? fs.pathExists with - | q
        · simp [hfind] at hres
        · simp [hfind] at hres
          exact this q hres
      · simp at hres
        exact this cp hres
    · simp at hres
      exact this ep hres

/-- Witness for C2 on a concrete filesystem in which only
models/model_final.pt exists under the bundle root /bundle. -/
theorem claim_C2_witness :
    resolve_checkpoint
        ⟨fun p => p == "/bundle/models/model_final.pt", fun _ => false⟩
        "/bundle" (some "weights.pt") none =
      Except.ok (finalizeCkpt "/bundle" "weights.pt") ∧
    resolve_checkpoint
        ⟨fun p => p == "/bundle/models/model_final.pt", fun _ => false⟩
        "/bundle" none (some "declared.pt") =
      Except.ok (finalizeCkpt "/bundle" "declared.pt") ∧
    (∀ p, ((ckptCandidates.map (joinP "/bundle")).find?
        (fun q => q == "/bundle/models/model_final.pt")) = some p →
      resolve_checkpoint
          ⟨fun q => q == "/bundle/models/model_final.pt", fun _ => false⟩
          "/bundle" none none = Except.ok p) ∧
    (((ckptCandidates.map (joinP "/bundle")).find?
        (fun q => q == "/bundle/models/model_final.pt")) = none →
      resolve_checkpoint
          ⟨fun q => q == "/bundle/models/model_final.pt", fun _ => false⟩
          "/bundle" none none =
        Except.error "No checkpoint found in bundle models/") ∧
    (∀ expl cfg p, resolve_checkpoint
          ⟨fun q => q == "/bundle/models/model_final.pt", fun _ => false⟩
          "/bundle" expl cfg = Except.ok p →
      isAbsP p = true) :=
  claim_C2 ⟨fun p => p == "/bundle/models/model_final.pt", fun _ => false⟩
    "/bundle" "weights.pt" "declared.pt" none (by decide)

/-- C6: a declarative bundle configuration with no `inferer` component
is assembled with the sliding-window default of region size (96,96,96),
batch size 1 and overlap 0.25; a declared inferer is instantiated
instead. -/
theorem claim_C6 (cfg : BundleConfig) :
    (cfg.inferer = none →
      assemble_inferer cfg = Inferer.slidingWindow (96, 96, 96) 1 (0.25 : ℚ)) ∧
    (∀ spec, cfg.inferer = some spec →
      assemble_inferer cfg = Inferer.fromConfig spec) := by
  constructor
  · intro h
    simp [assemble_inferer, h]
  · intro spec h
    simp [assemble_inferer, h]

/-- Witness for C6 on a config without inferer and one with. -/
theorem claim_C6_witness :
    assemble_inferer ⟨none, none, none⟩ =
      Inferer.slidingWindow (96, 96, 96) 1 (0.25 : ℚ) ∧
    assemble_inferer ⟨none, none, some "my_inferer"⟩ =
      Inferer.fromConfig "my_inferer" :=
  ⟨(claim_C6 ⟨none, none, none⟩).1 rfl,
   (claim_C6 ⟨none, none, some "my_inferer"⟩).2 "my_inferer" rfl⟩

/-- The two-stage search of `_resolve_config_file` equals one first-match
search over the five candidate names in priority order. -/
lemma resolve_config_file_eq (fs : FS) (bundleDir : String) :
    resolve_config_file fs bundleDir =
      match (configCandidates.map (joinP (joinP bundleDir "configs"))).find?
          fs.pathExists with
        | some p => Except.ok p
        | none => Except.error noConfigMsg := by
  have hsplit : configCandidates.map (joinP (joinP bundleDir "configs")) =
      (["inference.yaml", "inference.json", "evaluate.yaml", "evaluate.json"].map
        (joinP (joinP bundleDir "configs"))) ++
      [joinP (joinP bundleDir "configs") "hyper_parameters.yaml"] := by
    simp [configCandidates]
  unfold resolve_config_file
  rw [hsplit, List.find?_append]
  rcases h4 : (["inference.yaml", "inference.json", "evaluate.yaml",
      "evaluate.json"].map (joinP (joinP bundleDir "configs"))).find?
      fs.pathExists with - | p
  · rcases hhp : fs.pathExists (joinP (joinP bundleDir "configs")
        "hyper_parameters.yaml") with - | -
    · simp [List.find?, hhp, Option.or]
    · simp [List.find?, hhp, Option.or]
  · simp [Option.or]

/-- C7: config selection returns the first existing file among the five
candidate names in priority order under configs/, and fails with the
config-not-found error exactly when none of the five exists. -/
theorem claim_C7 (fs : FS) (bundleDir : String) :
    resolve_config_file fs bundleDir =
      (match (configCandidates.map (joinP (joinP bundleDir "configs"))).find?
          fs.pathExists with
        | some p => Except.ok p
        | none => Except.error noConfigMsg) ∧
    (resolve_config_file fs bundleDir = Except.error noConfigMsg ↔
      ∀ name ∈ configCandidates,
        fs.pathExists (joinP (joinP bundleDir "configs") name) = false) := by
  refine ⟨resolve_config_file_eq fs bundleDir, ?_⟩
  rw [resolve_config_file_eq fs bundleDir]
  rcases hfind : (configCandidates.map (joinP (joinP bundleDir "configs"))).find?
      fs.pathExists with - | p
  · have hall := List.find?_eq_none.mp hfind
    constructor
    · intro _ name hname
      have := hall (joinP (joinP bundleDir "configs") name)
        (List.mem_map_of_mem (joinP (joinP bundleDir "configs")) hname)
      simpa using this
    · intro _
      rfl
  · have hex : fs.pathExists p = true := List.find?_some hfind
    have hmem := List.mem_of_find?_eq_some hfind
    constructor
    · intro habs
      simp at habs
    · intro hall
      exfalso
      rcases List.mem_map.mp hmem with ⟨name, hname, hpe⟩
      have hf := hall name hname
      rw [hpe] at hf
      rw [hf] at hex
      simp at hex

/-- Witness for C7 on the empty filesystem under bundle root /b: no
config file exists, so resolution fails with the config-not-found
error. -/
theorem claim_C7_witness :
    resolve_config_file ⟨fun _ => false, fun _ => false⟩ "/b" =
      (match (configCandidates.map (joinP (joinP "/b" "configs"))).find?
          (fun _ => false) with
        | some p => Except.ok p
        | none => Except.error noConfigMsg) ∧
    (resolve_config_file ⟨fun _ => false, fun _ => false⟩ "/b" =
        Except.error noConfigMsg ↔
      ∀ name ∈ configCandidates,
        (false : Bool) = false) :=
  claim_C7 ⟨fun _ => false, fun _ => false⟩ "/b"

/-! ## Dictionary lemmas for the monai_compat embedding -/

/-- Membership on a cons cell splits into head key and tail. -/
lemma dHas_cons {V : Type} (p : String × V) (d : List (String × V)) (k : String) :
    dHas (p :: d) k = ((p.1 == k) || dHas d k) := by
  simp [dHas]

/-- Lookup on a cons cell checks the head key first. -/
lemma dGet_cons {V : Type} (p : String × V) (d : List (String × V)) (k : String) :
    dGet (p :: d) k = if p.1 == k then some p.2 else dGet d k := by
  rcases hb : p.1 == k with - | - <;> simp [dGet, List.find?, hb]

/-- Removal on a cons cell drops a matching head. -/
lemma dPop_cons {V : Type} (p : String × V) (d : List (String × V)) (k : String) :
    dPop (p :: d) k = if p.1 == k then dPop d k else p :: dPop d k := by
  rcases hb : p.1 == k with - | - <;> simp [dPop, List.filter, bne, hb]

/-- Looking up an absent key yields nothing. -/
lemma dGet_of_not_has {V : Type} (d : List (String × V)) (k : String)
    (h : dHas d k = false) : dGet d k = none := by
  induction d with
  | nil => rfl
  | cons p ps ih =>
    rw [dHas_cons] at h
    rcases hb : (p.1 == k) with - | -
    · rw [dGet_cons, hb]
      simp only [Bool.false_eq_true, if_false]
      apply ih
      simpa [hb] using h
    · rw [hb] at h
      simp at h

/-- Looking up a present key yields a value. -/
lemma dGet_of_has {V : Type} (d : List (String × V)) (k : String)
    (h : dHas d k = true) : ∃ x, dGet d k = some x := by
  induction d with
  | nil => simp [dHas] at h
  | cons p ps ih =>
    rw [dHas_cons] at h
    rcases hb : (p.1 == k) with - | -
    · rw [dGet_cons, hb]
      simp only [Bool.false_eq_true, if_false]
      apply ih
      simpa [hb] using h
    · rw [dGet_cons, hb]
      exact ⟨p.2, rfl⟩

/-- Removing an absent key leaves the dictionary unchanged. -/
lemma dPop_of_not_has {V : Type} (d : List (String × V)) (k : String)
    (h : dHas d k = false) : dPop d k = d := by
  induction d with
  | nil => rfl
  | cons p ps ih =>
    rw [dHas_cons] at h
    rcases hb : (p.1 == k) with - | -
    · rw [dPop_cons, hb]
      simp only [Bool.false_eq_true, if_false]
      rw [ih (by simpa [hb] using h)]
    · rw [hb] at h
      simp at h

/-- Setting an absent key appends the new entry. -/
lemma dSet_of_not_has {V : Type} (d : List (String × V)) (k : String) (v : V)
    (h : dHas d k = false) : dSet d k v = d ++ [(k, v)] := by
  unfold dSet
  rw [h]
  simp

/-- Lookup after an in-place update of a present key. -/
lemma dGet_map_set {V : Type} (d : List (String × V)) (k : String) (v : V)
    (h : dHas d k = true) :
    dGet (d.map (fun p => if p.1 == k then (k, v) else p)) k = some v := by
  induction d with
  | nil => simp [dHas] at h
  | cons p ps ih =>
    rw [dHas_cons] at h
    rcases hb : (p.1 == k) with - | -
    · rw [List.map_cons, hb]
      simp only [Bool.false_eq_true, if_false]
      rw [dGet_cons, hb]
      simp only [Bool.false_eq_true, if_false]
      apply ih
      simpa [hb] using h
    · rw [List.map_cons, hb]
      simp only [if_true]
      rw [dGet_cons]
      simp

/-- Lookup of a freshly set key always yields the new value. -/
lemma dGet_dSet_self {V : Type} (d : List (String × V)) (k : String) (v : V) :
    dGet (dSet d k v) k = some v := by
  unfold dSet
  rcases hh : dHas d k with - | -
  · simp only [Bool.false_eq_true, if_false]
    rw [dGet, List.find?_append]
    have : List.find? (fun p => p.1 == k) d = none := by
      have := dGet_of_not_has d k hh
      unfold dGet at this
      exact Option.map_eq_none.mp this
    rw [this]
    simp [List.find?]
  · simp only [if_true]
    exact dGet_map_set d k v hh

/-- The key-indexed value after a set, with default. -/
lemma dGetD_of_has {V : Type} (d : List (String × V)) (k : String) (v0 : V)
    (h : dHas d k = true) : dGet d k = some (dGetD d k v0) := by
  rcases dGet_of_has d k h with ⟨x, hx⟩
  rw [hx]
  unfold dGetD
  rw [hx]
  rfl

/-! ## monai_compat.py — the dice-helper adapter and the module patchers -/

/-- First transform of the keyword remapping performed by the class
returned from `make_dice_helper_compat` (monai_compat.py lines 75–83).
`params` are the constructor parameter names of the wrapped class
probed via `inspect.signature`, `kwargs` the keyword arguments of the
call.  A `threshold` argument the target does not accept is popped and
its value re-added under `sigmoid` (preferred) or `activate` when that
slot is supported and not already supplied; with no available slot the
value is dropped. -/
def compat_step1 {V : Type} (params : List String)
    (kwargs : List (String × V)) : List (String × V) :=
  match (if params.contains "threshold" then none else dGet kwargs "threshold") with
  | none => kwargs
  | some v =>
    if params.contains "sigmoid" && !(dHas (dPop kwargs "threshold") "sigmoid") then
      dSet (dPop kwargs "threshold") "sigmoid" v
    else if params.contains "activate" && !(dHas (dPop kwargs "threshold") "activate") then
      dSet (dPop kwargs "threshold") "activate" v
    else dPop kwargs "threshold"

/-- Second transform of the adapter: when the call carries `sigmoid`,
the target lacks it but accepts the legacy `threshold` name, the value
moves to `threshold`. -/
def compat_step2 {V : Type} (params : List String)
    (m1 : List (String × V)) : List (String × V) :=
  match (if params.contains "sigmoid" || !(params.contains "threshold") then none
         else dGet m1 "sigmoid") with
  | none => m1
  | some v => dSet (dPop m1 "sigmoid") "threshold" v

/-- The complete keyword dictionary handed to the wrapped class by a
call of the adapter. -/
def compat_call {V : Type} (params : List String)
    (kwargs : List (String × V)) : List (String × V) :=
  compat_step2 params (compat_step1 params kwargs)

/-- A metric-helper class object: an ordinary class with its runtime
name and constructor parameter names, or the wrapper produced by
`make_dice_helper_compat`, whose `__name__` is always the fixed wrapper
name. -/
inductive DiceCls where
  | plain (name : String) (params : List String)
  | compatOf (inner : DiceCls)
deriving DecidableEq, Repr

/-- The runtime `__name__` inspected by `install_dice_helper_compat`. -/
def DiceCls.clsName : DiceCls → String
  | .plain n _ => n
  | .compatOf _ => "_NeuroTKCompatDiceHelper"

/-- A metrics module: its optional DiceHelper attribute. -/
structure MetricsModule where
  diceHelper : Option DiceCls
deriving DecidableEq, Repr

/-- Embedding of `install_dice_helper_compat` (monai_compat.py lines
93–100): no attribute — do nothing and report False; attribute already
the wrapper (detected by its `__name__`) — do nothing and report False;
otherwise replace the attribute by the wrapper around it and report
True. -/
def install_dice_helper_compat (m : MetricsModule) : Bool × MetricsModule :=
  match m.diceHelper with
  | none => (false, m)
  | some c =>
    if c.clsName == "_NeuroTKCompatDiceHelper" then (false, m)
    else (true, ⟨some (DiceCls.compatOf c)⟩)

/-- A transforms module: an attribute table from names to object ids. -/
structure TransformsModule where
  attrs : List (String × Nat)
deriving DecidableEq, Repr

/-- The misspelled alias name that older bundle scripts import. -/
def aliasTarget : String := "RandScaleIntensityFixedMeand"

/-- Accepted alias candidates of `install_transform_compat`, in the
order they are probed. -/
def aliasCandidates : List String :=
  ["RandScaleIntensityFixedMeanD", "RandScaleIntensityFixedMeanDict",
   "RandScaleIntensityFixedMean"]

/-- Exact error message raised by `install_transform_compat` when no
candidate exists (monai_compat.py lines 118–122). -/
def transformCompatMsg : String :=
  "MONAI transform compatibility error: bundle import expects `RandScaleIntensityFixedMeand`, but no compatible transform was found in installed MONAI. Install a supported MONAI release (recommended: >=1.3,<1.6)."

/-- Embedding of `install_transform_compat` (monai_compat.py lines
103–122): return without change if the misspelled reference exists;
otherwise bind it to the first existing candidate and report the pair
(target, candidate); otherwise raise the compatibility error. -/
def install_transform_compat (m : TransformsModule) :
    Except String (Option (String × String) × TransformsModule) :=
  if dHas m.attrs aliasTarget then Except.ok (none, m)
  else
    match aliasCandidates.find? (fun c => dHas m.attrs c) with
    | some cand =>
      Except.ok (some (aliasTarget, cand),
        ⟨dSet m.attrs aliasTarget (dGetD m.attrs cand 0)⟩)
    | none => Except.error transformCompatMsg

/-- C10: installing the dice-helper wrapper is idempotent — it reports
True and replaces the DiceHelper attribute exactly when the attribute
exists and is not already the wrapper; a second call after a successful
install reports False and changes nothing, and a call on a module
without the attribute reports False and changes nothing. -/
theorem claim_C10 (m : MetricsModule) :
    (m.diceHelper = none → install_dice_helper_compat m = (false, m)) ∧
    (∀ c, m.diceHelper = some c → c.clsName ≠ "_NeuroTKCompatDiceHelper" →
      install_dice_helper_compat m = (true, ⟨some (DiceCls.compatOf c)⟩)) ∧
    (∀ c, m.diceHelper = some c → c.clsName = "_NeuroTKCompatDiceHelper" →
      install_dice_helper_compat m = (false, m)) ∧
    ((install_dice_helper_compat m).1 = true →
      install_dice_helper_compat (install_dice_helper_compat m).2 =
        (false, (install_dice_helper_compat m).2)) ∧
    ((install_dice_helper_compat m).1 = false →
      (install_dice_helper_compat m).2 = m) := by
  refine ⟨?_, ?_, ?_, ?_, ?_⟩
  · intro h
    simp [install_dice_helper_compat, h]
  · intro c hc hname
    simp [install_dice_helper_compat, hc, hname]
  · intro c hc hname
    simp [install_dice_helper_compat, hc, hname]
  · intro htrue
    rcases hd : m.diceHelper with - | c
    · simp [install_dice_helper_compat, hd] at htrue
    · rcases hn : c.clsName == "_NeuroTKCompatDiceHelper" with - | -
      · have hstep : install_dice_helper_compat m =
            (true, ⟨some (DiceCls.compatOf c)⟩) := by
          simp [install_dice_helper_compat, hd, hn]
        rw [hstep]
        simp [install_dice_helper_compat, DiceCls.clsName]
      · simp [install_dice_helper_compat, hd, hn] at htrue
  · intro hfalse
    rcases hd : m.diceHelper with - | c
    · simp [install_dice_helper_compat, hd]
    · rcases hn : c.clsName == "_NeuroTKCompatDiceHelper" with - | -
      · simp [install_dice_helper_compat, hd, hn] at hfalse
      · simp [install_dice_helper_compat, hd, hn]

/-- Witness for C10 at a module whose DiceHelper is an ordinary class. -/
theorem claim_C10_witness :
    ((⟨some (DiceCls.plain "DiceHelper" ["sigmoid"])⟩ : MetricsModule).diceHelper =
        none →
      install_dice_helper_compat ⟨some (DiceCls.plain "DiceHelper" ["sigmoid"])⟩ =
        (false, ⟨some (DiceCls.plain "DiceHelper" ["sigmoid"])⟩)) ∧
    (∀ c, (⟨some (DiceCls.plain "DiceHelper" ["sigmoid"])⟩ : MetricsModule).diceHelper =
        some c →
      c.clsName ≠ "_NeuroTKCompatDiceHelper" →
      install_dice_helper_compat ⟨some (DiceCls.plain "DiceHelper" ["sigmoid"])⟩ =
        (true, ⟨some (DiceCls.compatOf c)⟩)) ∧
    (∀ c, (⟨some (DiceCls.plain "DiceHelper" ["sigmoid"])⟩ : MetricsModule).diceHelper =
        some c →
      c.clsName = "_NeuroTKCompatDiceHelper" →
      install_dice_helper_compat ⟨some (DiceCls.plain "DiceHelper" ["sigmoid"])⟩ =
        (false, ⟨some (DiceCls.plain "DiceHelper" ["sigmoid"])⟩)) ∧
    ((install_dice_helper_compat ⟨some (DiceCls.plain "DiceHelper" ["sigmoid"])⟩).1 =
        true →
      install_dice_helper_compat
          (install_dice_helper_compat
            ⟨some (DiceCls.plain "DiceHelper" ["sigmoid"])⟩).2 =
        (false, (install_dice_helper_compat
          ⟨some (DiceCls.plain "DiceHelper" ["sigmoid"])⟩).2)) ∧
    ((install_dice_helper_compat ⟨some (DiceCls.plain "DiceHelper" ["sigmoid"])⟩).1 =
        false →
      (install_dice_helper_compat ⟨some (DiceCls.plain "DiceHelper" ["sigmoid"])⟩).2 =
        ⟨some (DiceCls.plain "DiceHelper" ["sigmoid"])⟩) :=
  claim_C10 ⟨some (DiceCls.plain "DiceHelper" ["sigmoid"])⟩

/-- C4: the alias installer returns without change when the misspelled
reference already exists; otherwise binds it to the first existing
candidate of the fixed ordered list, reporting which alias was used and
making the target resolve to the candidate's object; and it fails with
the compatibility error — whose message names the expected symbol and
the recommended version range — exactly when neither the target nor any
candidate exists. -/
theorem claim_C4 (m : TransformsModule) :
    (dHas m.attrs aliasTarget = true →
      install_transform_compat m = Except.ok (none, m)) ∧
    (∀ cand, dHas m.attrs aliasTarget = false →
      aliasCandidates.find? (fun c => dHas m.attrs c) = some cand →
      install_transform_compat m =
        Except.ok (some (aliasTarget, cand),
          ⟨dSet m.attrs aliasTarget (dGetD m.attrs cand 0)⟩) ∧
      dGet (dSet m.attrs aliasTarget (dGetD m.attrs cand 0)) aliasTarget =
        dGet m.attrs cand) ∧
    ((∃ msg, install_transform_compat m = Except.error msg) ↔
      (dHas m.attrs aliasTarget = false ∧
        ∀ c ∈ aliasCandidates, dHas m.attrs c = false)) ∧
    (install_transform_compat m = Except.error transformCompatMsg ∨
      ∃ r, install_transform_compat m = Except.ok r) ∧
    containsSeg aliasTarget.data transformCompatMsg.data = true ∧
    containsSeg ">=1.3,<1.6".data transformCompatMsg.data = true := by
  refine ⟨?_, ?_, ?_, ?_, by decide, by decide⟩
  · intro h
    simp [install_transform_compat, h]
  · intro cand hno hfind
    constructor
    · simp [install_transform_compat, hno, hfind]
    · rw [dGet_dSet_self]
      have hcand : dHas m.attrs cand = true := List.find?_some hfind
      exact (dGetD_of_has m.attrs cand 0 hcand).symm
  · constructor
    · rintro ⟨msg, hmsg⟩
      unfold install_transform_compat at hmsg
      rcases hh : dHas m.attrs aliasTarget with - | -
      · rw [hh] at hmsg
        simp only [Bool.false_eq_true, if_false] at hmsg
        rcases hfind : aliasCandidates.find? (fun c => dHas m.attrs c) with - | cand
        · refine ⟨rfl, ?_⟩
          have hall := List.find?_eq_none.mp hfind
          intro c hc
          simpa using hall c hc
        · rw [hfind] at hmsg
          simp at hmsg
      · rw [hh] at hmsg
        simp at hmsg
    · rintro ⟨hno, hall⟩
      have hfind : aliasCandidates.find? (fun c => dHas m.attrs c) = none := by
        rw [List.find?_eq_none]
        intro c hc
        simp [hall c hc]
      refine ⟨transformCompatMsg, ?_⟩
      simp [install_transform_compat, hno, hfind]
  · unfold install_transform_compat
    rcases hh : dHas m.attrs aliasTarget with - | -
    · simp only [Bool.false_eq_true, if_false]
      rcases hfind : aliasCandidates.find? (fun c => dHas m.attrs c) with - | cand
      · left
        rfl
      · right
        exact ⟨_, rfl⟩
    · right
      exact ⟨_, rfl⟩

/-- Witness for C4 on a module exposing only the candidate
RandScaleIntensityFixedMeanD as object 7. -/
theorem claim_C4_witness :
    (dHas ([("RandScaleIntensityFixedMeanD", 7)] : List (String × Nat)) aliasTarget =
        true →
      install_transform_compat ⟨[("RandScaleIntensityFixedMeanD", 7)]⟩ =
        Except.ok (none, ⟨[("RandScaleIntensityFixedMeanD", 7)]⟩)) ∧
    (∀ cand, dHas ([("RandScaleIntensityFixedMeanD", 7)] : List (String × Nat))
        aliasTarget = false →
      aliasCandidates.find?
          (fun c => dHas ([("RandScaleIntensityFixedMeanD", 7)] : List (String × Nat)) c) =
        some cand →
      install_transform_compat ⟨[("RandScaleIntensityFixedMeanD", 7)]⟩ =
        Except.ok (some (aliasTarget, cand),
          ⟨dSet [("RandScaleIntensityFixedMeanD", 7)] aliasTarget
            (dGetD [("RandScaleIntensityFixedMeanD", 7)] cand 0)⟩) ∧
      dGet (dSet [("RandScaleIntensityFixedMeanD", 7)] aliasTarget
          (dGetD [("RandScaleIntensityFixedMeanD", 7)] cand 0)) aliasTarget =
        dGet [("RandScaleIntensityFixedMeanD", 7)] cand) ∧
    ((∃ msg, install_transform_compat ⟨[("RandScaleIntensityFixedMeanD", 7)]⟩ =
        Except.error msg) ↔
      (dHas ([("RandScaleIntensityFixedMeanD", 7)] : List (String × Nat)) aliasTarget =
          false ∧
        ∀ c ∈ aliasCandidates,
          dHas ([("RandScaleIntensityFixedMeanD", 7)] : List (String × Nat)) c = false)) ∧
    (install_transform_compat ⟨[("RandScaleIntensityFixedMeanD", 7)]⟩ =
        Except.error transformCompatMsg ∨
      ∃ r, install_transform_compat ⟨[("RandScaleIntensityFixedMeanD", 7)]⟩ =
        Except.ok r) ∧
    containsSeg aliasTarget.data transformCompatMsg.data = true ∧
    containsSeg ">=1.3,<1.6".data transformCompatMsg.data = true :=
  claim_C4 ⟨[("RandScaleIntensityFixedMeanD", 7)]⟩

/-- C3 counterexample: when the wrapped class accepts only `extra` —
none of threshold, sigmoid or activate — a call carrying only
`threshold=true` is not passed through unmodified: the adapter pops the
threshold argument, finds no remap slot, and silently drops it, handing
the wrapped class an empty keyword dictionary. -/
theorem claim_C3_counterexample :
    compat_call ["extra"] [("threshold", true)] = ([] : List (String × Bool)) ∧
    compat_call ["extra"] [("threshold", true)] ≠ [("threshold", true)] :=
  ⟨rfl, by decide⟩

/-- C3 (amended): for every class handed to the dice-helper adapter
factory: a class accepting `sigmoid` (or `activate`) but not
`threshold`, called with threshold=v plus other keyword arguments,
receives sigmoid=v (preferring sigmoid over activate) and the other
arguments unchanged; a class accepting `threshold` but not `sigmoid`,
called with sigmoid=v plus other arguments, receives threshold=v; a
call that carries no `threshold` key and whose `sigmoid` key, if any,
has a remap slot or is accepted, passes through unmodified; and when
the class accepts none of threshold, sigmoid and activate, the call
passes through with any `threshold` argument silently dropped. -/
theorem claim_C3 {V : Type} (params : List String)
    (rest kwargs : List (String × V)) (v : V)
    (hrT : dHas rest "threshold" = false)
    (hrS : dHas rest "sigmoid" = false)
    (hrA : dHas rest "activate" = false) :
    (params.contains "threshold" = false →
      (params.contains "sigmoid" = true ∨ params.contains "activate" = true) →
      compat_call params (("threshold", v) :: rest) =
        rest ++ [((if params.contains "sigmoid" then "sigmoid" else "activate"), v)]) ∧
    (params.contains "threshold" = true → params.contains "sigmoid" = false →
      compat_call params (("sigmoid", v) :: rest) = rest ++ [("threshold", v)]) ∧
    (dHas kwargs "threshold" = false →
      (dHas kwargs "sigmoid" = true →
        params.contains "sigmoid" = true ∨ params.contains "threshold" = false) →
      compat_call params kwargs = kwargs) ∧
    (params.contains "threshold" = false → params.contains "sigmoid" = false →
      params.contains "activate" = false →
      compat_call params kwargs = dPop kwargs "threshold") := by
  refine ⟨?_, ?_, ?_, ?_⟩
  · intro hnT hSA
    have hnT2 : "threshold" ∉ params := by simpa using hnT
    rcases hS : params.contains "sigmoid" with - | -
    · have hA : params.contains "activate" = true := by
        rcases hSA with h | h
        · rw [h] at hS
          simp at hS
        · exact h
      have hS2 : "sigmoid" ∉ params := by simpa using hS
      have hA2 : "activate" ∈ params := by simpa using hA
      simp [compat_call, compat_step1, compat_step2, hnT, hnT2, hS, hS2, hA, hA2,
        dGet_cons, dPop_cons, dPop_of_not_has rest "threshold" hrT,
        dSet_of_not_has rest "activate" v hrA, hrA]
    · have hS2 : "sigmoid" ∈ params := by simpa using hS
      simp [compat_call, compat_step1, compat_step2, hnT, hnT2, hS, hS2,
        dGet_cons, dPop_cons, dPop_of_not_has rest "threshold" hrT,
        dSet_of_not_has rest "sigmoid" v hrS, hrS]
  · intro hT hnS
    have hT2 : "threshold" ∈ params := by simpa using hT
    have hnS2 : "sigmoid" ∉ params := by simpa using hnS
    simp [compat_call, compat_step1, compat_step2, hT, hT2, hnS, hnS2, dGet_cons,
      dPop_cons, dPop_of_not_has rest "sigmoid" hrS,
      dSet_of_not_has rest "threshold" v hrT]
  · intro hkT himp
    have hm1 : compat_step1 params kwargs = kwargs := by
      unfold compat_step1
      rcases hT : params.contains "threshold" with - | -
      · simp [hT, dGet_of_not_has kwargs "threshold" hkT]
      · simp [hT]
    unfold compat_call
    rw [hm1]
    unfold compat_step2
    rcases hS : params.contains "sigmoid" with - | -
    · rcases hT : params.contains "threshold" with - | -
      · have hT2 : "threshold" ∉ params := by simpa using hT
        simp [hS, hT, hT2]
      · have hkS : dHas kwargs "sigmoid" = false := by
          rcases hkS : dHas kwargs "sigmoid" with - | -
          · rfl
          · rcases himp hkS with h | h
            · rw [h] at hS
              simp at hS
            · rw [h] at hT
              simp at hT
        have hS2 : "sigmoid" ∉ params := by simpa using hS
        have hT2 : "threshold" ∈ params := by simpa using hT
        simp [hS, hS2, hT, hT2, dGet_of_not_has kwargs "sigmoid" hkS]
    · have hS2 : "sigmoid" ∈ params := by simpa using hS
      simp [hS, hS2]
  · intro hnT hnS hnA
    have hnT2 : "threshold" ∉ params := by simpa using hnT
    have hnS2 : "sigmoid" ∉ params := by simpa using hnS
    have hnA2 : "activate" ∉ params := by simpa using hnA
    have hm1 : compat_step1 params kwargs = dPop kwargs "threshold" := by
      unfold compat_step1
      rcases hg : dGet kwargs "threshold" with - | w
      · have hkT : dHas kwargs "threshold" = false := by
          rcases hh : dHas kwargs "threshold" with - | -
          · rfl
          · rcases dGet_of_has kwargs "threshold" hh with ⟨x, hx⟩
            rw [hx] at hg
            simp at hg
        simp [hnT, hnT2, hg, dPop_of_not_has kwargs "threshold" hkT]
      · simp [hnT, hnT2, hg, hnS, hnS2, hnA, hnA2]
    unfold compat_call
    rw [hm1]
    unfold compat_step2
    simp [hnS, hnS2, hnT, hnT2]

/-- Witness for C3 (amended): the adapter around a class accepting only
`sigmoid` and `ignore_empty`, with rest = [(ignore_empty, false)] and
kwargs = [(extra, true)]. -/
theorem claim_C3_witness :
    ((["sigmoid", "ignore_empty"] : List String).contains "threshold" = false →
      ((["sigmoid", "ignore_empty"] : List String).contains "sigmoid" = true ∨
        (["sigmoid", "ignore_empty"] : List String).contains "activate" = true) →
      compat_call ["sigmoid", "ignore_empty"]
          [("threshold", true), ("ignore_empty", false)] =
        [("ignore_empty", false)] ++
          [((if (["sigmoid", "ignore_empty"] : List String).contains "sigmoid"
            then "sigmoid" else "activate"), true)]) ∧
    ((["sigmoid", "ignore_empty"] : List String).contains "threshold" = true →
      (["sigmoid", "ignore_empty"] : List String).contains "sigmoid" = false →
      compat_call ["sigmoid", "ignore_empty"]
          [("sigmoid", true), ("ignore_empty", false)] =
        [("ignore_empty", false)] ++ [("threshold", true)]) ∧
    (dHas ([("extra", true)] : List (String × Bool)) "threshold" = false →
      (dHas ([("extra", true)] : List (String × Bool)) "sigmoid" = true →
        (["sigmoid", "ignore_empty"] : List String).contains "sigmoid" = true ∨
        (["sigmoid", "ignore_empty"] : List String).contains "threshold" = false) →
      compat_call ["sigmoid", "ignore_empty"] [("extra", true)] = [("extra", true)]) ∧
    ((["sigmoid", "ignore_empty"] : List String).contains "threshold" = false →
      (["sigmoid", "ignore_empty"] : List String).contains "sigmoid" = false →
      (["sigmoid", "ignore_empty"] : List String).contains "activate" = false →
      compat_call ["sigmoid", "ignore_empty"] [("extra", true)] =
        dPop [("extra", true)] "threshold") :=
  claim_C3 ["sigmoid", "ignore_empty"] [("ignore_empty", false)] [("extra", true)] true
    (by decide) (by decide) (by decide)

/-! ## config.py — bundle reference parsing and resolution -/

/-- A character of the class [A-Za-z0-9_.-] of `_REPO_ID_RE`. -/
def repoCharOK (c : Char) : Bool :=
  c.isAlphanum || c == '_' || c == '.' || c == '-'

/-- Full match of `_REPO_ID_RE`: exactly one slash separating two
non-empty runs of identifier characters. -/
def matchesRepoId (l : Chars) : Bool :=
  match splitOnChar '/' l with
  | [a, b] => !a.isEmpty && !b.isEmpty && a.all repoCharOK && b.all repoCharOK
  | _ => false

/-- The path component that urlparse extracts from an https URL: drop
the scheme marker, then the network location up to the next slash, and
cut at a query or fragment marker. -/
def urlPath (l : Chars) : Chars :=
  ((l.drop 8).dropWhile (fun c => !(c == '/'))).takeWhile
    (fun c => !(c == '?') && !(c == '#'))

/-- Python `value.replace("https:/", "https://", 1)` at its only call
site, where `value` starts with "https:/" so the first occurrence is
the prefix itself. -/
def fixSingleSlash (l : Chars) : Chars := "https://".data ++ l.drop 7

/-- The typo-normalisation step of `_parse_hf_repo_id` (config.py lines
17–18): a single-slash hosting-site URL is rewritten to the
double-slash form, any other value is untouched. -/
def normalizeTypo (value : Chars) : Chars :=
  if segPre "https:/huggingface.co/".data value &&
      !(segPre "https://huggingface.co/".data value)
  then fixSingleSlash value else value

/-- Embedding of `_parse_hf_repo_id` (config.py lines 12–26). -/
def parseHfRepoId (value : Chars) : Option Chars :=
  if segPre "hf:".data value then
    if (stripSlashes (value.drop 3)).isEmpty then none
    else some (stripSlashes (value.drop 3))
  else
    if segPre "https://huggingface.co/".data (normalizeTypo value) then
      match (splitOnChar '/' (urlPath (normalizeTypo value))).filter
          (fun p => !p.isEmpty) with
      | a :: b :: _ => some (a ++ '/' :: b)
      | _ =>
        if matchesRepoId (normalizeTypo value) then some (normalizeTypo value)
        else none
    else
      if matchesRepoId (normalizeTypo value) then some (normalizeTypo value)
      else none

/-- Result of resolving a bundle reference. -/
inductive ResolvedBundle where
  | localDir (path : String)
  | downloaded (repoId : String)
deriving DecidableEq, Repr

/-- Like os.path.abspath at the resolution entry point: a relative path
is anchored at the working directory (dot normalisation not modelled). -/
def abspathAt (cwd p : String) : String :=
  if isAbsP p then p else joinP cwd p

/-- Embedding of `resolve_bundle_dir` (config.py lines 43–52): an
existing path is made absolute; a directory is returned as such; else
the reference is parsed as a repository id and handed to the download
capability; else a not-found error naming the reference is raised. -/
def resolve_bundle_dir (fs : FS) (cwd : String) (bundle : String) :
    Except String ResolvedBundle :=
  let b := if fs.pathExists bundle then abspathAt cwd bundle else bundle
  if fs.isDir b then Except.ok (ResolvedBundle.localDir b)
  else
    match parseHfRepoId b.data with
    | some repo => Except.ok (ResolvedBundle.downloaded (String.mk repo))
    | none => Except.error ("bundle_dir not found: " ++ b)

/-- Every character of a matched pattern occurs in the text. -/
lemma segPre_mem : ∀ (p v : Chars), segPre p v = true → ∀ c ∈ p, c ∈ v := by
  intro p
  induction p with
  | nil =>
    intro v _ c hc
    exact absurd hc (List.not_mem_nil c)
  | cons a as ih =>
    intro v h c hc
    cases v with
    | nil => simp [segPre] at h
    | cons b bs =>
      simp only [segPre, Bool.and_eq_true, beq_iff_eq] at h
      rcases List.mem_cons.mp hc with rfl | hc2
      · rw [h.1]
        exact List.mem_cons_self b bs
      · exact List.mem_cons_of_mem b (ih bs h.2 c hc2)

/-- Splitting a list that avoids the separator yields one segment. -/
lemma splitOnChar_of_not_mem (c : Char) (l : Chars) (h : c ∉ l) :
    splitOnChar c l = [l] := by
  induction l with
  | nil => rfl
  | cons x xs ih =>
    have hx : (x == c) = false := by
      rcases hb : x == c with - | -
      · rfl
      · exact absurd (by rw [beq_iff_eq.mp hb]; exact List.mem_cons_self c xs) h
    have hxs : c ∉ xs := fun hc => h (List.mem_cons_of_mem x hc)
    simp only [splitOnChar, ih hxs, hx]
    simp

/-- Splitting at the first separator occurrence peels off the prefix. -/
lemma splitOnChar_append (c : Char) (a b : Chars) (h : c ∉ a) :
    splitOnChar c (a ++ c :: b) = a :: splitOnChar c b := by
  induction a with
  | nil => simp [splitOnChar]
  | cons x xs ih =>
    have hx : (x == c) = false := by
      rcases hb : x == c with - | -
      · rfl
      · exact absurd (by rw [beq_iff_eq.mp hb]; exact List.mem_cons_self c xs) h
    have hxs : c ∉ xs := fun hc => h (List.mem_cons_of_mem x hc)
    simp only [List.cons_append, splitOnChar, List.append_eq, ih hxs, hx]
    simp

/-- Identifier characters are none of the structural characters. -/
lemma repoCharOK_ne (c : Char) (h : repoCharOK c = true) :
    (c == '/') = false ∧ (c == '?') = false ∧ (c == '#') = false ∧
      (c == ':') = false := by
  refine ⟨?_, ?_, ?_, ?_⟩ <;>
  · rcases hb : c == _ with - | -
    · rfl
    · rw [beq_iff_eq.mp hb] at h
      exact absurd h (by decide)

/-- A string whose first and last characters are not slashes is left
unchanged by the slash strip. -/
lemma stripSlashes_eq_self (l : Chars) (h1 : l ≠ [])
    (hhead : ∀ c, l.head? = some c → (c == '/') = false)
    (hlast : ∀ c, l.reverse.head? = some c → (c == '/') = false) :
    stripSlashes l = l := by
  obtain ⟨a, as, rfl⟩ := List.exists_cons_of_ne_nil h1
  have ha : (a == '/') = false := hhead a rfl
  unfold stripSlashes
  have hd : (a :: as).dropWhile (fun c => c == '/') = a :: as := by
    simp [List.dropWhile_cons, ha]
  rw [hd]
  have hne : (a :: as).reverse ≠ [] := by simp
  obtain ⟨b, bs, hrev⟩ := List.exists_cons_of_ne_nil hne
  have hb : (b == '/') = false := by
    apply hlast
    rw [hrev]
    rfl
  rw [hrev]
  have hd2 : (b :: bs).dropWhile (fun c => c == '/') = b :: bs := by
    simp [List.dropWhile_cons, hb]
  rw [hd2, ← hrev, List.reverse_reverse]

/-- A run of identifier characters contains no slash. -/
lemma slash_not_mem_of_ok (l : Chars) (hk : ∀ c ∈ l, repoCharOK c = true) :
    '/' ∉ l :=
  fun hc => absurd (hk '/' hc) (by decide)

/-- Characters of an org/model identifier are identifier characters or
the single separating slash. -/
lemma repo_char_cases (org model : Chars)
    (hko : ∀ c ∈ org, repoCharOK c = true)
    (hkm : ∀ c ∈ model, repoCharOK c = true) :
    ∀ c ∈ org ++ '/' :: model, repoCharOK c = true ∨ c = '/' := by
  intro c hc
  rcases List.mem_append.mp hc with h | h
  · exact Or.inl (hko c h)
  · rcases List.mem_cons.mp h with rfl | h2
    · exact Or.inr rfl
    · exact Or.inl (hkm c h2)

/-- A pattern containing a colon never matches the start of a
colon-free text. -/
lemma segPre_false_of_colon (p v : Chars) (hp : ':' ∈ p) (hv : ':' ∉ v) :
    segPre p v = false := by
  rcases hb : segPre p v with - | -
  · rfl
  · exact absurd (segPre_mem p v hb ':' hp) hv

/-- An org/model identifier contains no colon. -/
lemma repo_no_colon (org model : Chars)
    (hko : ∀ c ∈ org, repoCharOK c = true)
    (hkm : ∀ c ∈ model, repoCharOK c = true) :
    ':' ∉ org ++ '/' :: model := by
  intro hc
  rcases repo_char_cases org model hko hkm ':' hc with h | h
  · exact absurd h (by decide)
  · exact absurd h (by decide)

/-- The regular expression accepts every well-formed org/model token. -/
lemma matchesRepoId_true (org model : Chars) (ho : org ≠ []) (hm : model ≠ [])
    (hko : ∀ c ∈ org, repoCharOK c = true)
    (hkm : ∀ c ∈ model, repoCharOK c = true) :
    matchesRepoId (org ++ '/' :: model) = true := by
  have hso : '/' ∉ org := slash_not_mem_of_ok org hko
  have hsm : '/' ∉ model := slash_not_mem_of_ok model hkm
  unfold matchesRepoId
  rw [splitOnChar_append '/' org model hso, splitOnChar_of_not_mem '/' model hsm]
  have h1 : org.isEmpty = false := by
    obtain ⟨o, os, rfl⟩ := List.exists_cons_of_ne_nil ho
    rfl
  have h2 : model.isEmpty = false := by
    obtain ⟨b, bs, rfl⟩ := List.exists_cons_of_ne_nil hm
    rfl
  have h3 : org.all repoCharOK = true := List.all_eq_true.mpr (fun c hc => hko c hc)
  have h4 : model.all repoCharOK = true := List.all_eq_true.mpr (fun c hc => hkm c hc)
  show (!org.isEmpty && !model.isEmpty && org.all repoCharOK &&
    model.all repoCharOK) = true
  rw [h1, h2, h3, h4]
  rfl

/-- Stripping slashes leaves an org/model identifier intact. -/
lemma stripSlashes_repo (org model : Chars) (ho : org ≠ []) (hm : model ≠ [])
    (hko : ∀ c ∈ org, repoCharOK c = true)
    (hkm : ∀ c ∈ model, repoCharOK c = true) :
    stripSlashes (org ++ '/' :: model) = org ++ '/' :: model := by
  apply stripSlashes_eq_self
  · obtain ⟨o, os, rfl⟩ := List.exists_cons_of_ne_nil ho
    simp
  · intro c hc
    obtain ⟨o, os, rfl⟩ := List.exists_cons_of_ne_nil ho
    simp only [List.cons_append, List.head?] at hc
    have hco : c = o := (Option.some.inj hc).symm
    rw [hco]
    exact (repoCharOK_ne o (hko o (List.mem_cons_self o os))).1
  · intro c hc
    obtain ⟨b, bs, hrev⟩ : ∃ b bs, model.reverse = b :: bs := by
      cases hr : model.reverse with
      | nil =>
        exact absurd (by simpa using congrArg List.reverse hr) hm
      | cons b bs => exact ⟨b, bs, rfl⟩
    have hbm : b ∈ model := by
      have : b ∈ model.reverse := by
        rw [hrev]
        exact List.mem_cons_self b bs
      simpa using this
    have hhead : (org ++ '/' :: model).reverse.head? = some b := by
      rw [List.reverse_append, List.reverse_cons, hrev]
      simp
    rw [hhead] at hc
    have hcb : c = b := (Option.some.inj hc).symm
    rw [hcb]
    exact (repoCharOK_ne b (hkm b hbm)).1

/-- The prefixed short form normalizes to the bare identifier. -/
lemma parse_hf (org model : Chars) (ho : org ≠ []) (hm : model ≠ [])
    (hko : ∀ c ∈ org, repoCharOK c = true)
    (hkm : ∀ c ∈ model, repoCharOK c = true) :
    parseHfRepoId ("hf:".data ++ (org ++ '/' :: model)) =
      some (org ++ '/' :: model) := by
  have h1 : segPre "hf:".data ("hf:".data ++ (org ++ '/' :: model)) = true := rfl
  have hdrop : ("hf:".data ++ (org ++ '/' :: model)).drop 3 =
      org ++ '/' :: model := rfl
  have hstrip := stripSlashes_repo org model ho hm hko hkm
  have hne : (org ++ '/' :: model).isEmpty = false := by
    obtain ⟨o, os, rfl⟩ := List.exists_cons_of_ne_nil ho
    rfl
  unfold parseHfRepoId
  rw [h1, if_pos rfl, hdrop, hstrip, hne, if_neg (by simp)]

/-- The hosting-site URL form normalizes to the bare identifier. -/
lemma parse_url (org model : Chars) (ho : org ≠ []) (hm : model ≠ [])
    (hko : ∀ c ∈ org, repoCharOK c = true)
    (hkm : ∀ c ∈ model, repoCharOK c = true) :
    parseHfRepoId ("https://huggingface.co/".data ++ (org ++ '/' :: model)) =
      some (org ++ '/' :: model) := by
  have hf : segPre "hf:".data
      ("https://huggingface.co/".data ++ (org ++ '/' :: model)) = false := rfl
  have ht : segPre "https:/huggingface.co/".data
      ("https://huggingface.co/".data ++ (org ++ '/' :: model)) = false := rfl
  have hu : segPre "https://huggingface.co/".data
      ("https://huggingface.co/".data ++ (org ++ '/' :: model)) = true := rfl
  have hup : urlPath ("https://huggingface.co/".data ++ (org ++ '/' :: model)) =
      '/' :: (org ++ '/' :: model) := by
    unfold urlPath
    have hdw : (("https://huggingface.co/".data ++
        (org ++ '/' :: model)).drop 8).dropWhile (fun c => !(c == '/')) =
        '/' :: (org ++ '/' :: model) := rfl
    rw [hdw]
    rw [List.takeWhile_eq_self_iff.mpr ?_]
    intro c hc
    rcases List.mem_cons.mp hc with rfl | hc2
    · decide
    · rcases repo_char_cases org model hko hkm c hc2 with h | rfl
      · have h2 := repoCharOK_ne c h
        simp [h2.2.1, h2.2.2.1]
      · decide
  have hso : '/' ∉ org := slash_not_mem_of_ok org hko
  have hsm : '/' ∉ model := slash_not_mem_of_ok model hkm
  have hsp : splitOnChar '/' ('/' :: (org ++ '/' :: model)) =
      [] :: org :: [model] := by
    have h0 := splitOnChar_append '/' [] (org ++ '/' :: model)
      (List.not_mem_nil '/')
    rw [List.nil_append] at h0
    rw [h0, splitOnChar_append '/' org model hso,
      splitOnChar_of_not_mem '/' model hsm]
  have hoe : org.isEmpty = false := by
    obtain ⟨o, os, rfl⟩ := List.exists_cons_of_ne_nil ho
    rfl
  have hme : model.isEmpty = false := by
    obtain ⟨b, bs, rfl⟩ := List.exists_cons_of_ne_nil hm
    rfl
  have hnt : normalizeTypo ("https://huggingface.co/".data ++
      (org ++ '/' :: model)) = "https://huggingface.co/".data ++
      (org ++ '/' :: model) := rfl
  have hfil : ([] :: org :: [model]).filter (fun p => !p.isEmpty) =
      [org, model] := by
    simp [List.filter, hoe, hme]
  unfold parseHfRepoId
  rw [hf, if_neg (by simp), hnt, hu, if_pos rfl, hup, hsp, hfil]

/-- The single-slash URL typo is normalized first, then parses like the
well-formed URL. -/
lemma parse_typo (org model : Chars) (ho : org ≠ []) (hm : model ≠ [])
    (hko : ∀ c ∈ org, repoCharOK c = true)
    (hkm : ∀ c ∈ model, repoCharOK c = true) :
    parseHfRepoId ("https:/huggingface.co/".data ++ (org ++ '/' :: model)) =
      some (org ++ '/' :: model) := by
  have heq : parseHfRepoId ("https:/huggingface.co/".data ++ (org ++ '/' :: model)) =
      parseHfRepoId ("https://huggingface.co/".data ++ (org ++ '/' :: model)) := rfl
  rw [heq]
  exact parse_url org model ho hm hko hkm

/-- The bare org/model token is accepted as the identifier itself. -/
lemma parse_bare (org model : Chars) (ho : org ≠ []) (hm : model ≠ [])
    (hko : ∀ c ∈ org, repoCharOK c = true)
    (hkm : ∀ c ∈ model, repoCharOK c = true) :
    parseHfRepoId (org ++ '/' :: model) = some (org ++ '/' :: model) := by
  have hnc := repo_no_colon org model hko hkm
  have hf : segPre "hf:".data (org ++ '/' :: model) = false :=
    segPre_false_of_colon _ _ (by decide) hnc
  have ht : segPre "https:/huggingface.co/".data (org ++ '/' :: model) = false :=
    segPre_false_of_colon _ _ (by decide) hnc
  have hu : segPre "https://huggingface.co/".data (org ++ '/' :: model) = false :=
    segPre_false_of_colon _ _ (by decide) hnc
  have hmr := matchesRepoId_true org model ho hm hko hkm
  have hnt : normalizeTypo (org ++ '/' :: model) = org ++ '/' :: model := by
    unfold normalizeTypo
    rw [ht, Bool.false_and, if_neg (by simp)]
  unfold parseHfRepoId
  rw [hf, if_neg (by simp), hnt, hu, if_neg (by simp), hmr, if_pos rfl]

/-- C5: bundle reference resolution — an existing local directory is
returned as its absolute path unchanged; the prefixed short form
hf:org/model, the hosting-site URL form (including the single-slash
typo, which is normalized to double-slash first) and the bare
org/model token all normalize to the identifier org/model before any
download step; and a reference that is not a directory and matches no
form fails with a resolution error naming the unrecognized reference. -/
theorem claim_C5 (fs : FS) (cwd bundle : String) (org model : Chars)
    (ho : org ≠ []) (hm : model ≠ [])
    (hko : ∀ c ∈ org, repoCharOK c = true)
    (hkm : ∀ c ∈ model, repoCharOK c = true) :
    (fs.pathExists bundle = true → fs.isDir (abspathAt cwd bundle) = true →
      resolve_bundle_dir fs cwd bundle =
        Except.ok (ResolvedBundle.localDir (abspathAt cwd bundle))) ∧
    parseHfRepoId ("hf:".data ++ (org ++ '/' :: model)) =
      some (org ++ '/' :: model) ∧
    parseHfRepoId ("https://huggingface.co/".data ++ (org ++ '/' :: model)) =
      some (org ++ '/' :: model) ∧
    parseHfRepoId ("https:/huggingface.co/".data ++ (org ++ '/' :: model)) =
      some (org ++ '/' :: model) ∧
    parseHfRepoId (org ++ '/' :: model) = some (org ++ '/' :: model) ∧
    (∀ repo, fs.pathExists bundle = false → fs.isDir bundle = false →
      parseHfRepoId bundle.data = some repo →
      resolve_bundle_dir fs cwd bundle =
        Except.ok (ResolvedBundle.downloaded (String.mk repo))) ∧
    (fs.pathExists bundle = false → fs.isDir bundle = false →
      parseHfRepoId bundle.data = none →
      resolve_bundle_dir fs cwd bundle =
        Except.error ("bundle_dir not found: " ++ bundle)) := by
  refine ⟨?_, parse_hf org model ho hm hko hkm, parse_url org model ho hm hko hkm,
    parse_typo org model ho hm hko hkm, parse_bare org model ho hm hko hkm,
    ?_, ?_⟩
  · intro hex hdir
    simp [resolve_bundle_dir, hex, hdir]
  · intro repo hnex hdir hparse
    simp [resolve_bundle_dir, hnex, hdir, hparse]
  · intro hnex hdir hparse
    simp [resolve_bundle_dir, hnex, hdir, hparse]

/-- Witness for C5 at the empty filesystem, working directory /cwd,
the unmatched reference "nosuch", and the identifier org/model. -/
theorem claim_C5_witness :
    ((⟨fun _ => false, fun _ => false⟩ : FS).pathExists "nosuch" = true →
      (⟨fun _ => false, fun _ => false⟩ : FS).isDir (abspathAt "/cwd" "nosuch") = true →
      resolve_bundle_dir ⟨fun _ => false, fun _ => false⟩ "/cwd" "nosuch" =
        Except.ok (ResolvedBundle.localDir (abspathAt "/cwd" "nosuch"))) ∧
    parseHfRepoId ("hf:".data ++ ("org".data ++ '/' :: "model".data)) =
      some ("org".data ++ '/' :: "model".data) ∧
    parseHfRepoId ("https://huggingface.co/".data ++
        ("org".data ++ '/' :: "model".data)) =
      some ("org".data ++ '/' :: "model".data) ∧
    parseHfRepoId ("https:/huggingface.co/".data ++
        ("org".data ++ '/' :: "model".data)) =
      some ("org".data ++ '/' :: "model".data) ∧
    parseHfRepoId ("org".data ++ '/' :: "model".data) =
      some ("org".data ++ '/' :: "model".data) ∧
    (∀ repo, (⟨fun _ => false, fun _ => false⟩ : FS).pathExists "nosuch" = false →
      (⟨fun _ => false, fun _ => false⟩ : FS).isDir "nosuch" = false →
      parseHfRepoId ("nosuch".data) = some repo →
      resolve_bundle_dir ⟨fun _ => false, fun _ => false⟩ "/cwd" "nosuch" =
        Except.ok (ResolvedBundle.downloaded (String.mk repo))) ∧
    ((⟨fun _ => false, fun _ => false⟩ : FS).pathExists "nosuch" = false →
      (⟨fun _ => false, fun _ => false⟩ : FS).isDir "nosuch" = false →
      parseHfRepoId ("nosuch".data) = none →
      resolve_bundle_dir ⟨fun _ => false, fun _ => false⟩ "/cwd" "nosuch" =
        Except.error ("bundle_dir not found: " ++ "nosuch")) :=
  claim_C5 ⟨fun _ => false, fun _ => false⟩ "/cwd" "nosuch" "org".data "model".data
    (by decide) (by decide) (by decide) (by decide)

end NeuroTK
